import Mathlib

/-!
Shallow embedding of the pipeline execution engine of the `upnorthmedia/pipeline`
repository (Python sources under `src/api/src/`), together with theorems checking
the natural-language specification against it.

The embedding models:
* the stage registry (`src/api/src/pipeline/state.py`),
* the sequential pipeline runner, its retry / dead-letter handler, the recrawl
  scheduler and the completion hook (`src/api/src/worker.py`),
* the pipeline-control endpoints (`src/api/src/api/posts.py`),
* the metrics logger and stage-output writer (`src/api/src/pipeline/helpers.py`),
* the event publisher (`src/api/src/api/events.py`).

Python dicts are modelled as insertion-ordered association lists
(`List (String × α)`) with lookup returning the first matching key and update
replacing in place (appending when the key is new), matching CPython semantics
for string-keyed dicts.  Machine integers are `Nat`/`Int`; monetary amounts and
durations are `ℚ`.
-/

namespace Pipeline

/-- Python `d.get(k)` on an insertion-ordered association list. -/
def dictGet {α : Type} (d : List (String × α)) (k : String) : Option α :=
  match d with
  | [] => none
  | (k1, v) :: rest => if k1 = k then some v else dictGet rest k

/-- Whether the dict has the key (Python `k in d`). -/
def hasKey {α : Type} (d : List (String × α)) (k : String) : Bool :=
  match d with
  | [] => false
  | (k1, _) :: rest => k1 = k || hasKey rest k

/-- Python `d[k] = v`: replace the value in place when the key exists, append
otherwise (CPython dicts preserve insertion order and hold each key once). -/
def dictSet {α : Type} (d : List (String × α)) (k : String) (v : α) :
    List (String × α) :=
  match d with
  | [] => [(k, v)]
  | (k1, v1) :: rest =>
    if k1 = k then (k, v) :: rest else (k1, v1) :: dictSet rest k v

/-- JSON-ish scalar values appearing in event payloads and log `data` blocks. -/
inductive JVal where
  | s (v : String)
  | i (v : Int)
  | q (v : ℚ)
  | b (v : Bool)
deriving DecidableEq

/-- One entry of a post's `execution_logs` audit trail
(spec section 3: `{timestamp, stage, level, event, message, data}`). -/
structure LogEntry where
  ts : String
  stage : String
  level : String
  event : String
  message : String
  data : List (String × JVal)
deriving DecidableEq

/-- One per-stage metrics record written by `log_stage_execution`
(`src/api/src/pipeline/helpers.py`). -/
structure StageLog where
  tokens_in : Nat
  tokens_out : Nat
  model : String
  duration_s : ℚ
  cost_usd : ℚ
deriving DecidableEq

/-- The `stage_logs["_error"]` record written by `_move_to_dlq`
(`src/api/src/worker.py`). -/
structure ErrorLog where
  message : String
  attempts : Nat
  failed_at : String
deriving DecidableEq

/-- A value of the JSONB `stage_logs` column: per-stage metrics or the
reserved `_error` slot. -/
inductive StageLogEntry where
  | metrics (m : StageLog)
  | err (e : ErrorLog)
deriving DecidableEq

/-- One dead-letter-queue record (`_move_to_dlq` in `src/api/src/worker.py`).
`stage` is `none` when the failing job was a full-pipeline run
(Python `failed_stage or None`). -/
structure DlqEntry where
  post_id : String
  stage : Option String
  error : String
  attempts : Nat
  failed_at : String
deriving DecidableEq

/-- The `posts` table row (`src/api/src/models/post.py`), restricted to the
fields the pipeline engine reads or writes.  The per-stage content columns
(`research_content`, `outline_content`, ...) are kept in `contents`, keyed by
column name, `none`-valued columns being absent keys. -/
structure Post where
  id : String
  slug : String
  topic : String
  profile_id : Option String
  contents : List (String × String)
  current_stage : String
  stage_settings : List (String × String)
  stage_status : List (String × String)
  stage_logs : List (String × StageLogEntry)
  execution_logs : List LogEntry
  completed_at : Option String
deriving DecidableEq

/-- The `website_profiles` table row (`src/api/src/models/profile.py`),
restricted to the fields the scheduler and completion hook read.
`last_crawled_at` is seconds since the epoch. -/
structure Profile where
  id : String
  name : String
  website_url : String
  crawl_status : String
  last_crawled_at : Option Int
  recrawl_interval : Option String
deriving DecidableEq

/-- The `internal_links` table row (`src/api/src/models/link.py`), restricted
to the fields the completion hook reads and writes. -/
structure InternalLink where
  profile_id : String
  url : String
  title : String
  slug : String
  source : String
  post_id : Option String
  keywords : List String
deriving DecidableEq

/-! ## Stage registry — `src/api/src/pipeline/state.py` -/

/-- `STAGES` (state.py line 8): the ordered stage list the runner, the rerun
endpoint and `_next_stage` iterate. -/
def STAGES : List String := ["research", "outline", "write", "edit", "images"]

/-- `STAGE_CONTENT_MAP` (state.py): stage name to `posts` content column. -/
def STAGE_CONTENT_MAP : List (String × String) :=
  [("research", "research_content"),
   ("outline", "outline_content"),
   ("write", "draft_content"),
   ("edit", "final_md_content"),
   ("images", "image_manifest")]

/-- The keys of `STAGE_NODE_FN` (worker.py lines 36-43): stages for which the
worker has an executable node function. -/
def STAGE_NODE_FN_stages : List String :=
  ["research", "outline", "write", "edit", "images", "ready"]

/-- `MAX_ATTEMPTS` (worker.py line 49). -/
def MAX_ATTEMPTS : Nat := 3

/-- The stage list the spec declares for the registry
(spec section 4.E: "research, outline, write, edit, images, ready"). -/
def specRegistryStages : List String :=
  ["research", "outline", "write", "edit", "images", "ready"]

/-- The stage-name validity check of `rerun_stage` and `run_post`
(posts.py lines 274 and 333: `if stage not in STAGES: 400`). -/
def rerun_stage_valid (stage : String) : Bool := STAGES.contains stage

/-! ## Event bus — `src/api/src/api/events.py` -/

/-- One `redis.publish` call: channel plus the JSON payload (as its key/value
fields, in serialisation order). -/
structure Published where
  channel : String
  payload : List (String × JVal)
deriving DecidableEq

/-- The payload dict literal of `publish_event`
(events.py line 65: `{"event": event, "post_id": post_id, **data}`): the two
base fields first, then the payload entries, later keys overriding earlier
ones exactly as the Python `**` splat does. -/
def publish_payload (post_id event : String) (data : List (String × JVal)) :
    List (String × JVal) :=
  data.foldl (fun acc kv => dictSet acc kv.1 kv.2)
    [("event", JVal.s event), ("post_id", JVal.s post_id)]

/-- `publish_event` (events.py lines 63-67): the same JSON record is published
to the per-post channel and then to the global channel. -/
def publish_event (post_id event : String) (data : List (String × JVal)) :
    List Published :=
  [⟨"pipeline:post:" ++ post_id, publish_payload post_id event data⟩,
   ⟨"pipeline:global", publish_payload post_id event data⟩]

/-! ## Execution log — `append_execution_log`

The worker imports `append_execution_log` from `src.pipeline.helpers`, but the
provided `helpers.py` does not contain its definition (only its callers and the
tests describe it). -/

/-- Modelled from the spec: `append_execution_log(session, post_id, stage,
level, event, message, data)` is missing from the provided
`src/api/src/pipeline/helpers.py`; spec section 3 describes `execution_logs`
as an append-only ordered sequence of entries
`(timestamp, stage, level, event, message, data)`. -/
def append_execution_log (post : Post) (stage level event message : String)
    (data : List (String × JVal)) (now : String) : Post :=
  { post with
    execution_logs :=
      post.execution_logs ++ [⟨now, stage, level, event, message, data⟩] }

/-! ## Metrics logger — `src/api/src/pipeline/helpers.py` -/

/-- `MODEL_COSTS` (helpers.py lines 68-72): price per 1M tokens (input, output)
by model name. -/
def MODEL_COSTS : List (String × (ℚ × ℚ)) :=
  [("sonar-pro", (3, 15)),
   ("claude-opus-4-6", (15, 75)),
   ("gemini-3.1-flash-image-preview", (0, 0))]

/-- Round-half-to-even to an integer, the semantics of Python `round`. -/
def pyRoundInt (x : ℚ) : ℤ :=
  if x - ⌊x⌋ < 1 / 2 then ⌊x⌋
  else if 1 / 2 < x - ⌊x⌋ then ⌊x⌋ + 1
  else if ⌊x⌋ % 2 = 0 then ⌊x⌋ else ⌊x⌋ + 1

/-- Python `round(x, n)` for nonnegative `n`. -/
def pyRound (x : ℚ) (n : ℕ) : ℚ :=
  (pyRoundInt (x * 10 ^ n) : ℚ) / 10 ^ n

/-- The `log_entry` dict built by `log_stage_execution`
(helpers.py lines 233-244): prices looked up by model name, defaulting to
zero for unknown models, `cost_usd` rounded to six decimals. -/
def stage_log_entry (model : String) (tokens_in tokens_out : Nat)
    (duration_s : ℚ) : StageLog :=
  let cost_info := (dictGet MODEL_COSTS model).getD (0, 0)
  let cost_usd :=
    (tokens_in : ℚ) / 1000000 * cost_info.1 +
    (tokens_out : ℚ) / 1000000 * cost_info.2
  { tokens_in := tokens_in
    tokens_out := tokens_out
    model := model
    duration_s := pyRound duration_s 2
    cost_usd := pyRound cost_usd 6 }

/-- `log_stage_execution` (helpers.py lines 223-260): merge the metrics entry
into the post's `stage_logs` under the stage name. -/
def log_stage_execution (post : Post) (stage model : String)
    (tokens_in tokens_out : Nat) (duration_s : ℚ) : Post :=
  { post with
    stage_logs :=
      dictSet post.stage_logs stage
        (StageLogEntry.metrics (stage_log_entry model tokens_in tokens_out duration_s)) }

/-! ## Stage output writer — `save_stage_output` (helpers.py lines 191-220) -/

/-- `save_stage_output`: resolve the content column from `STAGE_CONTENT_MAP`
(unknown stages are logged and ignored), write the content and
`current_stage = stage`, and the full `stage_status` dict when one is given. -/
def save_stage_output (post : Post) (stage content : String)
    (stage_status : Option (List (String × String)) := none) : Post :=
  match dictGet STAGE_CONTENT_MAP stage with
  | none => post
  | some column =>
    { post with
      contents := dictSet post.contents column content
      current_stage := stage
      stage_status := stage_status.getD post.stage_status }

/-! ## Pipeline-control endpoints — `src/api/src/api/posts.py` -/

/-- `_next_stage` (posts.py lines 588-594): the lowest-indexed stage whose
status is not `complete`, if any. -/
def next_stage (post : Post) : Option String :=
  STAGES.find? (fun s => !(dictGet post.stage_status s == some "complete"))

/-- Result of the `approve_stage` endpoint: a 400-class rejection, or the
post as committed plus whether a full-pipeline job was enqueued. -/
inductive ApproveResult where
  | error (status : Nat) (detail : String)
  | ok (post : Post) (enqueued : Bool)
deriving DecidableEq

/-- `approve_stage` (posts.py lines 349-398): reject unless the current stage
is a real stage sitting in `review`; optionally overwrite the stage content;
mark the stage complete; advance `current_stage` and enqueue a full-pipeline
job when a next stage remains. -/
def approve_stage (post : Post) (content : Option String) : ApproveResult :=
  let current := post.current_stage
  if current = "" ∨ current ∈ ["pending", "complete", "failed"] then
    .error 400 "No stage awaiting review"
  else if ¬ (dictGet post.stage_status current = some "review") then
    .error 400 ("Stage " ++ current ++ " is not in review")
  else
    let post1 := match content with
      | some c => save_stage_output post current c
      | none => post
    let status := dictSet post1.stage_status current "complete"
    let post2 := { post1 with stage_status := status }
    match next_stage post2 with
    | some nxt =>
      .ok { post2 with
            current_stage := nxt
            stage_status := dictSet status nxt "running" } true
    | none =>
      .ok { post2 with current_stage := "complete" } false

/-- `pause_post` (posts.py lines 401-414): set `current_stage = "paused"`. -/
def pause_post (post : Post) : Post := { post with current_stage := "paused" }

/-! ## Pipeline runner — `src/api/src/worker.py` -/

/-- What one iteration of the `_run_pipeline` loop decides to do with a stage
before any node function runs. -/
inductive IterationStep where
  /-- `continue`: no node function, or (full runs) the stage is already
  complete. -/
  | skip
  /-- Gate pause (worker.py lines 157-189): the post is committed with
  `stage_status[stage] = "review"` and `current_stage = stage`, a
  `stage_review` event is published, and `_run_pipeline` returns. -/
  | pause (post1 : Post) (events : List Published)
  /-- Fall through to executing the stage node. -/
  | execute
deriving DecidableEq

/-- The run/skip/pause decision of one `_run_pipeline` loop iteration
(worker.py lines 137-192), taken on the freshly loaded post: skip when there
is no node function for the stage; on full runs skip stages already
`complete`; when gates are checked, pause for review when the mode (default
`"review"` when absent) is `"review"` or `"approve_only"`; otherwise execute. -/
def stage_iteration (post : Post) (stage : String)
    (is_full_pipeline check_gates : Bool) : IterationStep :=
  if ¬ STAGE_NODE_FN_stages.contains stage then .skip
  else if is_full_pipeline ∧ dictGet post.stage_status stage = some "complete" then
    .skip
  else if check_gates then
    let mode := (dictGet post.stage_settings stage).getD "review"
    if mode = "review" ∨ mode = "approve_only" then
      .pause
        { post with
          stage_status := dictSet post.stage_status stage "review"
          current_stage := stage }
        (publish_event post.id "stage_review"
          [("stage", JVal.s stage),
           ("message", JVal.s ("Stage " ++ stage ++ " paused for review"))])
    else .execute
  else .execute

/-- Everything the `except` branch of `_run_pipeline` (worker.py lines
321-370) together with `_move_to_dlq` (lines 395-429) produces. -/
structure FailureOutcome where
  events : List Published
  post : Post
  dlq : List DlqEntry
  reraise : Bool
deriving DecidableEq

/-- The `failed_stage` local of the exception handler (worker.py line 323):
the single target stage of a single-stage run, otherwise the empty string. -/
def failed_stage_of (target_stages : List String) : String :=
  match target_stages with
  | [s] => s
  | _ => ""

/-- The exception handler of `_run_pipeline` plus `_move_to_dlq`: publish a
`stage_error` event; below `MAX_ATTEMPTS` append a warning/retry execution-log
entry and re-raise; otherwise append an error log entry, push one dead-letter
record (Redis `lpush`, newest first), set `current_stage = "failed"`, record
`stage_logs["_error"]`, and return without re-raising. -/
def pipeline_failure_handler (job_try : Nat) (post_id : String)
    (target_stages : List String) (err : String) (now : String)
    (post : Post) (dlq : List DlqEntry) : FailureOutcome :=
  let failed_stage := failed_stage_of target_stages
  let events := publish_event post_id "stage_error"
    [("stage", JVal.s failed_stage), ("error", JVal.s err),
     ("message", JVal.s ("Pipeline failed: " ++ err))]
  if job_try < MAX_ATTEMPTS then
    let post1 := append_execution_log post failed_stage "warning" "retry"
      ("Pipeline attempt " ++ toString job_try ++ " failed, retrying...")
      [("attempt", JVal.i job_try), ("max_attempts", JVal.i MAX_ATTEMPTS),
       ("error", JVal.s err)] now
    ⟨events, post1, dlq, true⟩
  else
    let post1 := append_execution_log post failed_stage "error" "stage_error"
      ("Pipeline failed after " ++ toString job_try ++ " attempts: " ++ err)
      [("error", JVal.s err), ("attempts", JVal.i job_try),
       ("moved_to_dlq", JVal.b true)] now
    let entry : DlqEntry :=
      ⟨post_id, if failed_stage = "" then none else some failed_stage,
       err, job_try, now⟩
    let post2 :=
      { post1 with
        current_stage := "failed"
        stage_logs := dictSet post1.stage_logs "_error"
          (StageLogEntry.err ⟨err, job_try, now⟩) }
    ⟨events, post2, entry :: dlq, false⟩

/-- Python `s.rstrip("/")`: drop every trailing slash. -/
def rstripSlash (s : String) : String :=
  String.mk ((s.data.reverse.dropWhile (fun c => c = '/')).reverse)

/-- `_post_completion_hook` (worker.py lines 432-477) over the link catalog:
resolve the post and its profile (silently returning when either is missing),
build the canonical URL, and unless a link with that URL already exists for
the profile, add a generated link, mark the post `complete` and stamp
`completed_at`. Returns the link catalog and the post row as left in the
database. -/
def post_completion_hook (post : Option Post) (profiles : List Profile)
    (links : List InternalLink) (related_keywords : List String)
    (now : String) : List InternalLink × Option Post :=
  match post with
  | none => (links, none)
  | some post =>
    match post.profile_id with
    | none => (links, some post)
    | some pid =>
      match profiles.find? (fun pr => pr.id == pid) with
      | none => (links, some post)
      | some profile =>
        let post_url := rstripSlash profile.website_url ++ "/" ++ post.slug ++ "/"
        if links.any (fun l => l.profile_id == pid && l.url == post_url) then
          (links, some post)
        else
          let link : InternalLink :=
            ⟨pid, post_url, post.topic, post.slug, "generated",
             some post.id, related_keywords⟩
          (links ++ [link],
           some { post with current_stage := "complete", completed_at := some now })

/-! ## Recrawl scheduler — `check_recrawl_schedules` (worker.py lines 554-586) -/

/-- Python `timedelta.days`: floor division of the elapsed seconds by 86400. -/
def timedeltaDays (seconds : Int) : Int := Int.fdiv seconds 86400

/-- `check_recrawl_schedules`: select profiles with a non-null
`recrawl_interval` and `crawl_status` other than `"crawling"`; enqueue a crawl
for each that was never crawled, or is weekly with at least 7 elapsed days, or
monthly with at least 30. Returns the enqueued `crawl_profile_sitemap` job
arguments in order. -/
def check_recrawl_schedules (now : Int) (profiles : List Profile) :
    List String :=
  (profiles.filter
    (fun p => p.recrawl_interval.isSome && !(p.crawl_status == "crawling"))).filterMap
    (fun p =>
    match p.last_crawled_at with
    | none => some p.id
    | some t =>
      let days := timedeltaDays (now - t)
      if p.recrawl_interval = some "weekly" ∧ 7 ≤ days then some p.id
      else if p.recrawl_interval = some "monthly" ∧ 30 ≤ days then some p.id
      else none)

/-- The enqueue condition exactly as claim C9 words it: `recrawl_interval` is
set, `crawl_status` is not `"crawling"`, and either `last_crawled_at` is null,
or the interval is weekly and at least 7 days (604800 s) have elapsed, or the
interval is monthly and at least 30 days (2592000 s) have elapsed. -/
def recrawlDueSpec (now : Int) (p : Profile) : Bool :=
  p.recrawl_interval.isSome && !(p.crawl_status == "crawling") &&
    (match p.last_crawled_at with
     | none => true
     | some t =>
       (p.recrawl_interval == some "weekly" && 7 * 86400 ≤ now - t) ||
       (p.recrawl_interval == some "monthly" && 30 * 86400 ≤ now - t))

/-! ## Concrete rows used by witnesses and counterexamples -/

/-- A freshly created post paused for review of `research`. -/
def c3post : Post :=
  ⟨"post-3", "slug-3", "Topic 3", none, [], "research", [],
   [("research", "review")], [], [], none⟩

/-- The committed row `approve_stage c3post none` produces. -/
def c3expected : Post :=
  ⟨"post-3", "slug-3", "Topic 3", none, [], "outline", [],
   [("research", "complete"), ("outline", "running")], [], [], none⟩

/-- A post paused at `write` under `approve_only`, with a draft already
saved. -/
def c4post : Post :=
  ⟨"post-4", "slug-4", "Topic 4", none,
   [("draft_content", "original draft")], "write",
   [("write", "approve_only")], [("write", "review")], [], [], none⟩

/-- A post whose `research` gate mode is the unknown string `"manual"`. -/
def c5post : Post :=
  ⟨"post-5", "slug-5", "Topic 5", none, [], "research",
   [("research", "manual")], [], [], [], none⟩

/-- Profile for the completion-hook scenarios. -/
def c6profile : Profile :=
  ⟨"prof-6", "Test Blog", "https://testblog.com", "complete", none, none⟩

/-- A post at its last stage, about to run the completion hook. -/
def c6post : Post :=
  ⟨"post-6", "my-test-post", "How to Test", some "prof-6", [], "images",
   [], [], [], [], none⟩

/-- A link catalog already holding the canonical URL of `c6post`. -/
def c6links : List InternalLink :=
  [⟨"prof-6", "https://testblog.com/my-test-post/", "Existing", "my-test-post",
    "sitemap", none, []⟩]

/-- A generic post row for witnesses. -/
def samplePost : Post :=
  ⟨"post-0", "slug-0", "Topic 0", none, [], "pending", [], [], [], [], none⟩

/-! ## Dictionary lemmas -/

/-- `d[k] = v` makes a later lookup of `k` return `v`. -/
theorem dictGet_dictSet_self {α : Type} (d : List (String × α)) (k : String)
    (v : α) : dictGet (dictSet d k v) k = some v := by
  induction d with
  | nil => simp [dictGet, dictSet]
  | cons p rest ih =>
    obtain ⟨k1, v1⟩ := p
    by_cases hk : k1 = k
    · simp [dictGet, dictSet, hk]
    · simp [dictGet, dictSet, hk, ih]

/-- `d[k] = v` does not disturb lookups of other keys. -/
theorem dictGet_dictSet_ne {α : Type} (d : List (String × α)) (k k2 : String)
    (v : α) (h : k2 ≠ k) : dictGet (dictSet d k v) k2 = dictGet d k2 := by
  induction d with
  | nil => simp [dictGet, dictSet, Ne.symm h]
  | cons p rest ih =>
    obtain ⟨k1, v1⟩ := p
    by_cases hk : k1 = k
    · subst hk
      simp [dictGet, dictSet, Ne.symm h]
    · by_cases h2 : k1 = k2 <;> simp [dictGet, dictSet, hk, h2, h, ih]

/-- Folding dict updates over entries that never mention `k` leaves lookups
of `k` unchanged. -/
theorem dictGet_fold_not_mem {α : Type} (data : List (String × α))
    (init : List (String × α)) (k : String)
    (h : data.any (fun kv => kv.1 == k) = false) :
    dictGet (data.foldl (fun acc kv => dictSet acc kv.1 kv.2) init) k =
      dictGet init k := by
  induction data generalizing init with
  | nil => rfl
  | cons kv rest ih =>
    simp only [List.any_cons, Bool.or_eq_false_iff, beq_eq_false_iff_ne] at h
    rw [List.foldl_cons, ih _ (by simp [List.any_eq_false] at h ⊢; exact h.2),
      dictGet_dictSet_ne _ _ _ _ (Ne.symm h.1)]

/-- After folding dict updates, a key resolves iff it was in the seed dict or
in the folded entries. -/
theorem dictGet_fold_isSome {α : Type} (data : List (String × α))
    (init : List (String × α)) (k : String) :
    (dictGet (data.foldl (fun acc kv => dictSet acc kv.1 kv.2) init) k).isSome
      = ((dictGet init k).isSome || data.any (fun kv => kv.1 == k)) := by
  induction data generalizing init with
  | nil => simp
  | cons kv rest ih =>
    rw [List.foldl_cons, ih]
    by_cases hk : kv.1 = k
    · subst hk
      simp [dictGet_dictSet_self]
    · have hbeq : (kv.1 == k) = false := by simpa using hk
      rw [List.any_cons, hbeq, dictGet_dictSet_ne _ _ _ _ (Ne.symm hk)]
      simp

/-- The approve path calls `save_stage_output` without a `stage_status`
argument, so the status dict is untouched by the content write. -/
theorem save_stage_output_preserves_status (post : Post) (stage c : String) :
    (save_stage_output post stage c).stage_status = post.stage_status := by
  unfold save_stage_output
  cases dictGet STAGE_CONTENT_MAP stage <;> rfl

/-! ## Arithmetic lemmas -/

/-- Rounding half-to-even stays within one half of the exact value. -/
theorem pyRoundInt_close (x : ℚ) : |(pyRoundInt x : ℚ) - x| ≤ 1 / 2 := by
  unfold pyRoundInt
  have h0 : ((⌊x⌋ : ℤ) : ℚ) ≤ x := Int.floor_le x
  have h1 : x < ((⌊x⌋ : ℤ) : ℚ) + 1 := Int.lt_floor_add_one x
  split_ifs with hlt hgt heven <;>
    · rw [abs_le]
      constructor <;> push_cast <;> linarith

/-- Python `round(x, n)` stays within half an ulp of `x`. -/
theorem pyRound_close (x : ℚ) (n : ℕ) :
    |pyRound x n - x| ≤ 1 / (2 * 10 ^ n) := by
  have hpow : (0 : ℚ) < 10 ^ n := by positivity
  have key : pyRound x n - x =
      ((pyRoundInt (x * 10 ^ n) : ℚ) - x * 10 ^ n) / 10 ^ n := by
    rw [pyRound, sub_div, mul_div_cancel_right₀ _ (ne_of_gt hpow)]
  rw [key, abs_div, abs_of_pos hpow, div_le_iff₀ hpow]
  have hhalf : (1 : ℚ) / (2 * 10 ^ n) * 10 ^ n = 1 / 2 := by
    field_simp
    ring
  rw [hhalf]
  exact pyRoundInt_close (x * 10 ^ n)

/-- Python `timedelta.days` threshold test: at least `n` whole days have
elapsed iff the elapsed seconds reach `n * 86400`. -/
theorem le_timedeltaDays_iff (x n : Int) :
    n ≤ timedeltaDays x ↔ n * 86400 ≤ x := by
  unfold timedeltaDays
  rw [Int.fdiv_eq_ediv _ (by decide)]
  exact Int.le_ediv_iff_mul_le (by decide)

/-! ## Claim theorems -/

/-- C1: the claim says the full-pipeline runner iterates the six registry
stages research, outline, write, edit, images, ready, and that a rerun
request is accepted exactly for those six names.  Evaluating the code at the
failing input: `STAGES` (state.py) holds only five stages, so the rerun
endpoint rejects `"ready"` as invalid and a full run never visits it, even
though the worker registers a node function for `ready` (and the repository's
own test asserts the six-stage list). -/
theorem c1_registry_omits_ready :
    rerun_stage_valid "ready" = false ∧
    STAGES = ["research", "outline", "write", "edit", "images"] ∧
    specRegistryStages = STAGES ++ ["ready"] ∧
    STAGE_NODE_FN_stages = specRegistryStages := by decide

/-- C3: approval fails with a 400-class error exactly when the current stage
is a reserved token (pending/complete/failed) or its status is not `review`
(the error is raised before any write, so the post is untouched); on success
the current stage's status becomes `complete`, `current_stage` advances to
the lowest-indexed stage whose status is not complete (or to `"complete"`),
and a full-pipeline job is enqueued iff such a next stage exists.  The
hypothesis `current_stage ≠ ""` reflects the non-null `current_stage` column,
which only ever holds stage names or reserved tokens. -/
theorem c3_approve_gating_and_advance (post : Post) (content : Option String)
    (hne : post.current_stage ≠ "") :
    ((∃ d, approve_stage post content = ApproveResult.error 400 d) ↔
      (post.current_stage ∈ ["pending", "complete", "failed"] ∨
        ¬ dictGet post.stage_status post.current_stage = some "review")) ∧
    (∀ post1 enq, approve_stage post content = ApproveResult.ok post1 enq →
      dictGet post1.stage_status post.current_stage = some "complete" ∧
      post1.current_stage =
        (next_stage
          { post with stage_status := dictSet post.stage_status post.current_stage "complete" }).getD
          "complete" ∧
      enq =
        (next_stage
          { post with stage_status := dictSet post.stage_status post.current_stage "complete" }).isSome) := by
  by_cases hres : post.current_stage ∈ ["pending", "complete", "failed"]
  · have hval : approve_stage post content =
        ApproveResult.error 400 "No stage awaiting review" := by
      unfold approve_stage
      rw [if_pos (Or.inr hres)]
    refine ⟨⟨fun _ => Or.inl hres, fun _ => ⟨_, hval⟩⟩, ?_⟩
    intro post1 enq h
    rw [hval] at h
    exact absurd h (by simp)
  · have hcond : ¬ (post.current_stage = "" ∨
        post.current_stage ∈ ["pending", "complete", "failed"]) := by
      rintro (h | h)
      · exact hne h
      · exact hres h
    by_cases hrev : dictGet post.stage_status post.current_stage = some "review"
    · have hss : (match content with
          | some c => save_stage_output post post.current_stage c
          | none => post).stage_status = post.stage_status := by
        cases content with
        | none => rfl
        | some c => exact save_stage_output_preserves_status post post.current_stage c
      have hval : approve_stage post content =
          (match next_stage
            { post with stage_status := dictSet post.stage_status post.current_stage "complete" } with
           | some nxt =>
             ApproveResult.ok
               { (match content with
                  | some c => save_stage_output post post.current_stage c
                  | none => post) with
                 current_stage := nxt
                 stage_status :=
                   dictSet (dictSet post.stage_status post.current_stage
                     "complete") nxt "running" } true
           | none =>
             ApproveResult.ok
               { (match content with
                  | some c => save_stage_output post post.current_stage c
                  | none => post) with
                 stage_status :=
                   dictSet post.stage_status post.current_stage "complete"
                 current_stage := "complete" } false) := by
        unfold approve_stage
        rw [if_neg hcond, if_neg (not_not_intro hrev)]
        simp only [next_stage]
        rw [hss]
      cases hnext : next_stage
          { post with stage_status := dictSet post.stage_status post.current_stage "complete" } with
      | some nxt =>
        rw [hnext] at hval
        refine ⟨⟨?_, ?_⟩, ?_⟩
        · rintro ⟨d, hd⟩
          rw [hval] at hd
          exact absurd hd (by simp)
        · intro hR
          exfalso
          rcases hR with h | h
          · exact hres h
          · exact h hrev
        · intro post1 enq h
          rw [hval] at h
          injection h with hA hE
          subst hA
          subst hE
          have hfind : ¬ dictGet (dictSet post.stage_status post.current_stage
              "complete") nxt = some "complete" := by
            have h1 := List.find?_some (by simpa [next_stage] using hnext)
            simpa using h1
          have hnxt_ne : post.current_stage ≠ nxt := by
            intro hEq
            apply hfind
            rw [← hEq]
            exact dictGet_dictSet_self _ _ _
          refine ⟨?_, by simp [hnext], by simp [hnext]⟩
          show dictGet (dictSet (dictSet post.stage_status post.current_stage
            "complete") nxt "running") post.current_stage = some "complete"
          rw [dictGet_dictSet_ne _ _ _ _ hnxt_ne]
          exact dictGet_dictSet_self _ _ _
      | none =>
        rw [hnext] at hval
        refine ⟨⟨?_, ?_⟩, ?_⟩
        · rintro ⟨d, hd⟩
          rw [hval] at hd
          exact absurd hd (by simp)
        · intro hR
          exfalso
          rcases hR with h | h
          · exact hres h
          · exact h hrev
        · intro post1 enq h
          rw [hval] at h
          injection h with hA hE
          subst hA
          subst hE
          exact ⟨dictGet_dictSet_self _ _ _, by simp [hnext], by simp [hnext]⟩
    · have hval : approve_stage post content =
          ApproveResult.error 400
            ("Stage " ++ post.current_stage ++ " is not in review") := by
        unfold approve_stage
        rw [if_neg hcond, if_pos hrev]
      refine ⟨⟨fun _ => Or.inr hrev, fun _ => ⟨_, hval⟩⟩, ?_⟩
      intro post1 enq h
      rw [hval] at h
      exact absurd h (by simp)

/-- C3 witness: approving `c3post` (stage `research` in review, no content)
commits the expected row — research complete, `current_stage` advanced to
`outline` — with a pipeline job enqueued. -/
theorem c3_approve_witness :
    approve_stage c3post none = ApproveResult.ok c3expected true ∧
    dictGet c3expected.stage_status "research" = some "complete" ∧
    c3expected.current_stage = "outline" := by
  have h := (c3_approve_gating_and_advance c3post none (by decide)).2
    c3expected true (by decide)
  exact ⟨by decide, h.1, by decide⟩

/-- C4: the claim says an approval call on an `approve_only` stage never
mutates that stage's content slot.  Evaluating the code at the failing input:
`approve_stage` never consults `stage_settings`, so approving `c4post`
(mode `approve_only`, draft `"original draft"`) with a caller-supplied
content argument overwrites `draft_content`. -/
theorem c4_approve_only_overwrites_content :
    dictGet c4post.stage_settings "write" = some "approve_only" ∧
    dictGet c4post.contents "draft_content" = some "original draft" ∧
    (match approve_stage c4post (some "overwritten content") with
     | ApproveResult.ok post1 _ => dictGet post1.contents "draft_content"
     | ApproveResult.error _ _ => none) = some "overwritten content" := by decide

/-- C5 counterexample: the claim says a stage-settings value other than
auto/review/approve_only defaults to review (the runner pauses).  On the code
the unknown mode `"manual"` falls through the gate and the stage executes. -/
theorem c5_unknown_mode_executes :
    dictGet c5post.stage_settings "research" = some "manual" ∧
    "manual" ∉ ["auto", "review", "approve_only"] ∧
    stage_iteration c5post "research" true true = IterationStep.execute := by
  decide

/-- C5 (amended): on a full-pipeline run arriving at a non-complete stage S
with a node function, the effective mode is `stage_settings[S]`, defaulting to
review only when the key is ABSENT; the runner pauses — writing
`stage_status[S] = review` and `current_stage = S` and emitting `stage_review`
— exactly when that effective mode is `review` or `approve_only`, and
otherwise (for `auto` and for every unknown string alike) executes S. -/
theorem c5_gate_mode_amended (post : Post) (stage : String)
    (hnode : STAGE_NODE_FN_stages.contains stage = true)
    (hnc : ¬ dictGet post.stage_status stage = some "complete") :
    (stage_iteration post stage true true =
        IterationStep.pause
          { post with
            stage_status := dictSet post.stage_status stage "review"
            current_stage := stage }
          (publish_event post.id "stage_review"
            [("stage", JVal.s stage),
             ("message", JVal.s ("Stage " ++ stage ++ " paused for review"))])
      ↔ ((dictGet post.stage_settings stage).getD "review" = "review" ∨
         (dictGet post.stage_settings stage).getD "review" = "approve_only")) ∧
    (stage_iteration post stage true true = IterationStep.execute
      ↔ ¬ ((dictGet post.stage_settings stage).getD "review" = "review" ∨
           (dictGet post.stage_settings stage).getD "review" = "approve_only")) := by
  by_cases hmode : ((dictGet post.stage_settings stage).getD "review" = "review" ∨
      (dictGet post.stage_settings stage).getD "review" = "approve_only")
  · have hval : stage_iteration post stage true true =
        IterationStep.pause
          { post with
            stage_status := dictSet post.stage_status stage "review"
            current_stage := stage }
          (publish_event post.id "stage_review"
            [("stage", JVal.s stage),
             ("message", JVal.s ("Stage " ++ stage ++ " paused for review"))]) := by
      unfold stage_iteration
      rw [if_neg (not_not_intro hnode), if_neg (fun hc => hnc hc.2),
        if_pos rfl]
      simp only [if_pos hmode]
    rw [hval]
    constructor
    · simp [hmode]
    · simp [hmode]
  · have hval : stage_iteration post stage true true = IterationStep.execute := by
      unfold stage_iteration
      rw [if_neg (not_not_intro hnode), if_neg (fun hc => hnc hc.2),
        if_pos rfl]
      simp only [if_neg hmode]
    rw [hval]
    constructor
    · simp [hmode]
    · simp [hmode]

/-- C5 witness: absent settings pause `samplePost` for review of `research`;
the unknown mode `"manual"` on `c5post` executes the stage. -/
theorem c5_gate_mode_amended_witness :
    stage_iteration samplePost "research" true true =
      IterationStep.pause
        { samplePost with
          stage_status := dictSet samplePost.stage_status "research" "review"
          current_stage := "research" }
        (publish_event samplePost.id "stage_review"
          [("stage", JVal.s "research"),
           ("message", JVal.s ("Stage " ++ "research" ++ " paused for review"))]) ∧
    stage_iteration c5post "research" true true = IterationStep.execute := by
  constructor
  · exact ((c5_gate_mode_amended samplePost "research" (by decide)
      (by decide)).1).mpr (by decide)
  · exact ((c5_gate_mode_amended c5post "research" (by decide)
      (by decide)).2).mpr (by decide)

/-- C6 counterexample: the claim says the completion hook marks the post
complete and sets `completed_at` in every case.  When a link with the
canonical URL already exists, `_post_completion_hook` returns before touching
the post: `c6post` stays at `current_stage = "images"` with no
`completed_at`. -/
theorem c6_existing_link_leaves_post_unchanged :
    c6links.any (fun l => l.profile_id == "prof-6" &&
        l.url == "https://testblog.com/my-test-post/") = true ∧
    post_completion_hook (some c6post) [c6profile] c6links []
        "2026-02-26T00:00:00+00:00" = (c6links, some c6post) ∧
    c6post.current_stage = "images" ∧ c6post.completed_at = none := by decide

/-- C7 counterexample: the claim says every published record carries at
minimum event, post_id and timestamp.  A `stage_start` publish (worker.py
lines 195-200) carries no timestamp field on either channel. -/
theorem c7_record_without_timestamp :
    (publish_event "post-1" "stage_start"
        [("stage", JVal.s "research"),
         ("message", JVal.s "Starting research...")]).map
        (fun r => r.channel) = ["pipeline:post:post-1", "pipeline:global"] ∧
    (publish_event "post-1" "stage_start"
        [("stage", JVal.s "research"),
         ("message", JVal.s "Starting research...")]).map
        (fun r => dictGet r.payload "timestamp") = [none, none] := by decide

/-- C2: on a stage-execution exception, an attempt below MAX_ATTEMPTS (3)
appends a warning/retry execution-log entry and re-raises, leaving the DLQ,
`current_stage` and `stage_logs` untouched; an attempt at 3 or above pushes
exactly one dead-letter entry (post_id, stage, error, attempts, failed_at)
onto the DLQ list, sets `current_stage = "failed"` and records the exception
message under `stage_logs["_error"]`, without re-raising. -/
theorem c2_retry_and_dead_letter (job_try : Nat) (post_id : String)
    (target_stages : List String) (err now : String) (post : Post)
    (dlq : List DlqEntry) :
    (job_try < 3 →
      (pipeline_failure_handler job_try post_id target_stages err now post
        dlq).reraise = true ∧
      (pipeline_failure_handler job_try post_id target_stages err now post
        dlq).dlq = dlq ∧
      (pipeline_failure_handler job_try post_id target_stages err now post
        dlq).post.current_stage = post.current_stage ∧
      (pipeline_failure_handler job_try post_id target_stages err now post
        dlq).post.stage_logs = post.stage_logs ∧
      ∃ entry,
        (pipeline_failure_handler job_try post_id target_stages err now post
          dlq).post.execution_logs = post.execution_logs ++ [entry] ∧
        entry.level = "warning" ∧ entry.event = "retry") ∧
    (3 ≤ job_try →
      (pipeline_failure_handler job_try post_id target_stages err now post
        dlq).reraise = false ∧
      (pipeline_failure_handler job_try post_id target_stages err now post
        dlq).dlq =
        DlqEntry.mk post_id
          (if failed_stage_of target_stages = "" then none
           else some (failed_stage_of target_stages)) err job_try now :: dlq ∧
      (pipeline_failure_handler job_try post_id target_stages err now post
        dlq).post.current_stage = "failed" ∧
      dictGet (pipeline_failure_handler job_try post_id target_stages err now
        post dlq).post.stage_logs "_error" =
        some (StageLogEntry.err ⟨err, job_try, now⟩)) := by
  constructor
  · intro h
    unfold pipeline_failure_handler
    rw [if_pos (show job_try < MAX_ATTEMPTS from h)]
    exact ⟨rfl, rfl, rfl, rfl, ⟨_, rfl, rfl, rfl⟩⟩
  · intro h
    unfold pipeline_failure_handler
    rw [if_neg (show ¬ job_try < MAX_ATTEMPTS by unfold MAX_ATTEMPTS; omega)]
    exact ⟨rfl, rfl, rfl, dictGet_dictSet_self _ _ _⟩

/-- C2 witness: the retry/dead-letter split evaluated at attempts 1 and 3 on
a concrete failing `write` job. -/
theorem c2_retry_and_dead_letter_witness :
    (pipeline_failure_handler 1 "post-0" ["write"] "boom" "T0" samplePost
      []).reraise = true ∧
    (pipeline_failure_handler 3 "post-0" ["write"] "boom" "T0" samplePost
      []).reraise = false ∧
    (pipeline_failure_handler 3 "post-0" ["write"] "boom" "T0" samplePost
      []).post.current_stage = "failed" := by
  have h1 := (c2_retry_and_dead_letter 1 "post-0" ["write"] "boom" "T0"
    samplePost []).1 (by decide)
  have h3 := (c2_retry_and_dead_letter 3 "post-0" ["write"] "boom" "T0"
    samplePost []).2 (by decide)
  exact ⟨h1.1, h3.1, h3.2.2.1⟩

/-- C6 (amended): after the last stage, the hook computes the canonical URL
`rstrip(website_url, "/") + "/" + slug + "/"`; when no link with that URL
exists for the profile it adds one Link with source `generated` AND marks the
post complete with `completed_at` set; when the URL already exists it returns
with the catalog and the post both untouched (the complete/`completed_at`
writes happen only on the fresh-link path). -/
theorem c6_completion_hook_amended (post : Post) (profile : Profile)
    (profiles : List Profile) (links : List InternalLink) (kws : List String)
    (now pid : String)
    (hpid : post.profile_id = some pid)
    (hprof : profiles.find? (fun pr => pr.id == pid) = some profile) :
    (links.any (fun l => l.profile_id == pid &&
        l.url == rstripSlash profile.website_url ++ "/" ++ post.slug ++ "/") = true →
      post_completion_hook (some post) profiles links kws now = (links, some post)) ∧
    (links.any (fun l => l.profile_id == pid &&
        l.url == rstripSlash profile.website_url ++ "/" ++ post.slug ++ "/") = false →
      post_completion_hook (some post) profiles links kws now =
        (links ++
          [⟨pid, rstripSlash profile.website_url ++ "/" ++ post.slug ++ "/",
            post.topic, post.slug, "generated", some post.id, kws⟩],
         some { post with current_stage := "complete", completed_at := some now })) := by
  simp only [post_completion_hook, hpid, hprof]
  constructor <;> intro h <;> simp [h]

/-- C6 witness: with the canonical URL already catalogued the hook is a
no-op; with an empty catalog it adds the generated link and completes the
post. -/
theorem c6_completion_hook_amended_witness :
    post_completion_hook (some c6post) [c6profile] c6links [] "T0"
      = (c6links, some c6post) ∧
    post_completion_hook (some c6post) [c6profile] [] [] "T0"
      = ([⟨"prof-6",
           rstripSlash c6profile.website_url ++ "/" ++ c6post.slug ++ "/",
           c6post.topic, c6post.slug, "generated", some c6post.id, []⟩],
         some { c6post with current_stage := "complete", completed_at := some "T0" }) := by
  constructor
  · exact (c6_completion_hook_amended c6post c6profile [c6profile] c6links []
      "T0" "prof-6" rfl (by decide)).1 (by decide)
  · exact (c6_completion_hook_amended c6post c6profile [c6profile] [] []
      "T0" "prof-6" rfl (by decide)).2 (by decide)

/-- C7 (amended): every publish writes one identical JSON record to both the
per-post and the global channel; the record carries `event` and `post_id`
(unless the payload itself overrides those keys), but a `timestamp` field is
present exactly when the caller's payload supplies one — `publish_event`
adds none itself. -/
theorem c7_publish_both_channels_amended (post_id event : String)
    (data : List (String × JVal)) :
    publish_event post_id event data =
      [⟨"pipeline:post:" ++ post_id, publish_payload post_id event data⟩,
       ⟨"pipeline:global", publish_payload post_id event data⟩] ∧
    (data.any (fun kv => kv.1 == "event") = false →
      dictGet (publish_payload post_id event data) "event"
        = some (JVal.s event)) ∧
    (data.any (fun kv => kv.1 == "post_id") = false →
      dictGet (publish_payload post_id event data) "post_id"
        = some (JVal.s post_id)) ∧
    ((dictGet (publish_payload post_id event data) "timestamp").isSome
      = data.any (fun kv => kv.1 == "timestamp")) := by
  refine ⟨rfl, ?_, ?_, ?_⟩
  · intro h
    rw [publish_payload, dictGet_fold_not_mem _ _ _ h]
    rfl
  · intro h
    rw [publish_payload, dictGet_fold_not_mem _ _ _ h]
    rfl
  · rw [publish_payload, dictGet_fold_isSome]
    rfl

/-- C7 witness: a `pipeline_complete` publish evaluated concretely — both
base fields resolve and no timestamp appears for a payload without one. -/
theorem c7_publish_both_channels_amended_witness :
    dictGet (publish_payload "post-0" "pipeline_complete"
        [("message", JVal.s "Pipeline finished")]) "event"
      = some (JVal.s "pipeline_complete") ∧
    dictGet (publish_payload "post-0" "pipeline_complete"
        [("message", JVal.s "Pipeline finished")]) "post_id"
      = some (JVal.s "post-0") ∧
    (dictGet (publish_payload "post-0" "pipeline_complete"
        [("message", JVal.s "Pipeline finished")]) "timestamp").isSome
      = [("message", JVal.s "Pipeline finished")].any
          (fun kv => kv.1 == "timestamp") := by
  have h := c7_publish_both_channels_amended "post-0" "pipeline_complete"
    [("message", JVal.s "Pipeline finished")]
  exact ⟨h.2.1 (by decide), h.2.2.1 (by decide), h.2.2.2⟩

/-- C8: every metrics entry the logger writes into `stage_logs[stage]` has
`cost_usd` within 1e-6 of tokens_in / 1e6 × price_in + tokens_out / 1e6 ×
price_out, with prices looked up by model name in `MODEL_COSTS`, and a model
absent from the table yields cost exactly 0. -/
theorem c8_cost_accounting (post : Post) (stage model : String)
    (tokens_in tokens_out : Nat) (duration_s : ℚ) :
    dictGet (log_stage_execution post stage model tokens_in tokens_out
        duration_s).stage_logs stage
      = some (StageLogEntry.metrics
          (stage_log_entry model tokens_in tokens_out duration_s)) ∧
    |(stage_log_entry model tokens_in tokens_out duration_s).cost_usd -
        ((tokens_in : ℚ) / 1000000 * ((dictGet MODEL_COSTS model).getD (0, 0)).1 +
         (tokens_out : ℚ) / 1000000 * ((dictGet MODEL_COSTS model).getD (0, 0)).2)|
      ≤ 1 / 1000000 ∧
    (dictGet MODEL_COSTS model = none →
      (stage_log_entry model tokens_in tokens_out duration_s).cost_usd = 0) := by
  refine ⟨?_, ?_, ?_⟩
  · unfold log_stage_execution
    exact dictGet_dictSet_self _ _ _
  · have hcost : (stage_log_entry model tokens_in tokens_out duration_s).cost_usd
        = pyRound
            ((tokens_in : ℚ) / 1000000 * ((dictGet MODEL_COSTS model).getD (0, 0)).1 +
             (tokens_out : ℚ) / 1000000 * ((dictGet MODEL_COSTS model).getD (0, 0)).2)
            6 := rfl
    rw [hcost]
    calc |pyRound ((tokens_in : ℚ) / 1000000 * ((dictGet MODEL_COSTS model).getD (0, 0)).1 +
             (tokens_out : ℚ) / 1000000 * ((dictGet MODEL_COSTS model).getD (0, 0)).2) 6 -
           ((tokens_in : ℚ) / 1000000 * ((dictGet MODEL_COSTS model).getD (0, 0)).1 +
            (tokens_out : ℚ) / 1000000 * ((dictGet MODEL_COSTS model).getD (0, 0)).2)|
        ≤ 1 / (2 * 10 ^ 6) := pyRound_close _ 6
      _ ≤ 1 / 1000000 := by norm_num
  · intro h
    have hcost : (stage_log_entry model tokens_in tokens_out duration_s).cost_usd
        = pyRound
            ((tokens_in : ℚ) / 1000000 * ((dictGet MODEL_COSTS model).getD (0, 0)).1 +
             (tokens_out : ℚ) / 1000000 * ((dictGet MODEL_COSTS model).getD (0, 0)).2)
            6 := rfl
    rw [hcost, h]
    norm_num [pyRound, pyRoundInt]

/-- C8 witness: a model missing from the price table yields cost 0, and the
entry lands under the stage key. -/
theorem c8_cost_accounting_witness :
    dictGet MODEL_COSTS "mystery-model" = none ∧
    (stage_log_entry "mystery-model" 123 456 1).cost_usd = 0 ∧
    dictGet (log_stage_execution samplePost "research" "mystery-model" 123 456
        1).stage_logs "research"
      = some (StageLogEntry.metrics (stage_log_entry "mystery-model" 123 456 1)) := by
  have h := c8_cost_accounting samplePost "research" "mystery-model" 123 456 1
  exact ⟨rfl, h.2.2 rfl, h.1⟩

/-- Pointwise form of the scheduler's per-profile decision for a selected
profile (interval set, not crawling): the enqueue test of the loop body
agrees with the spec-side due predicate. -/
theorem recrawl_point (now : Int) (p : Profile)
    (hint : p.recrawl_interval.isSome = true)
    (hcs : (p.crawl_status == "crawling") = false) :
    (match p.last_crawled_at with
     | none => some p.id
     | some t =>
       if p.recrawl_interval = some "weekly" ∧ 7 ≤ timedeltaDays (now - t) then
         some p.id
       else if p.recrawl_interval = some "monthly" ∧
           30 ≤ timedeltaDays (now - t) then some p.id
       else none)
    = if recrawlDueSpec now p then some p.id else none := by
  cases hlast : p.last_crawled_at with
  | none => simp [recrawlDueSpec, hint, hcs, hlast]
  | some t =>
    by_cases hw : p.recrawl_interval = some "weekly"
    · by_cases h7 : 7 ≤ timedeltaDays (now - t)
      · have h7s : (604800 : Int) ≤ now - t := by
          have h := (le_timedeltaDays_iff (now - t) 7).mp h7
          omega
        simp [recrawlDueSpec, hint, hcs, hlast, hw, h7, h7s]
      · have h7s : ¬ (604800 : Int) ≤ now - t := fun hc =>
          h7 ((le_timedeltaDays_iff (now - t) 7).mpr (by omega))
        simp [recrawlDueSpec, hint, hcs, hlast, hw, h7, h7s]
    · by_cases hm : p.recrawl_interval = some "monthly"
      · by_cases h30 : 30 ≤ timedeltaDays (now - t)
        · have h30s : (2592000 : Int) ≤ now - t := by
            have h := (le_timedeltaDays_iff (now - t) 30).mp h30
            omega
          simp [recrawlDueSpec, hint, hcs, hlast, hw, hm, h30, h30s]
        · have h30s : ¬ (2592000 : Int) ≤ now - t := fun hc =>
            h30 ((le_timedeltaDays_iff (now - t) 30).mpr (by omega))
          simp [recrawlDueSpec, hint, hcs, hlast, hw, hm, h30, h30s]
      · simp [recrawlDueSpec, hint, hcs, hlast, hw, hm]

/-- C9: on a scheduler tick, the enqueued crawl jobs are exactly the ids of
the profiles satisfying the claim's condition — `recrawl_interval` set,
`crawl_status` not `"crawling"`, and (never crawled, or weekly with at least
7 days elapsed, or monthly with at least 30 days elapsed) — in catalog
order; no other profile is enqueued. -/
theorem c9_recrawl_enqueue_condition (now : Int) (profiles : List Profile) :
    check_recrawl_schedules now profiles =
      (profiles.filter (recrawlDueSpec now)).map Profile.id := by
  induction profiles with
  | nil => rfl
  | cons p rest ih =>
    unfold check_recrawl_schedules at ih ⊢
    simp only [List.filter_cons]
    by_cases hsel : (p.recrawl_interval.isSome &&
        !(p.crawl_status == "crawling")) = true
    · obtain ⟨hint, hcs⟩ : p.recrawl_interval.isSome = true ∧
          (p.crawl_status == "crawling") = false := by
        simpa using hsel
      rw [if_pos hsel, List.filterMap_cons, recrawl_point now p hint hcs]
      by_cases hdue : recrawlDueSpec now p = true
      · simp [hdue, ih]
      · have hdf : recrawlDueSpec now p = false := by simpa using hdue
        simp [hdf, ih]
    · have hself : (p.recrawl_interval.isSome &&
          !(p.crawl_status == "crawling")) = false := by simpa using hsel
      rw [if_neg hsel]
      have hdf : recrawlDueSpec now p = false := by
        unfold recrawlDueSpec
        rw [hself]
        exact Bool.false_and _
      simp [hdf, ih]

/-- C10: the per-stage run/skip/pause decision of the runner loop is a
function of `stage_status` and `stage_settings` only — replacing
`current_stage` by any value, in particular by the `"paused"` token that
`pause_post` writes, changes nothing, so an already-enqueued full-pipeline
job still executes every remaining non-complete stage whose gate mode
permits it. -/
theorem c10_decision_ignores_current_stage (post : Post) (c stage : String)
    (is_full check_gates : Bool) :
    stage_iteration { post with current_stage := c } stage is_full check_gates
      = stage_iteration post stage is_full check_gates ∧
    stage_iteration (pause_post post) stage is_full check_gates
      = stage_iteration post stage is_full check_gates :=
  ⟨rfl, rfl⟩

end Pipeline
